/-
Verification of the MCP connection/discovery orchestrator and the
confirmation-correlation interceptor of gemini-cli.

Embedded sources:
* `src/packages/core/src/tools/mcp-client-manager.ts` — the batch-coalescing
  `McpClientManager` (the variant §9 of the spec adopts as the contract).
* `src/unnamed/part_014` — `MessageBusPlugin.beforeToolCallback` and its
  one-shot `responseHandler`.
* `src/unnamed/part_016` — the older, non-coalescing `McpClientManager`.

The single-threaded JS event loop is modelled by event-labelled transition
systems: each synchronous section between `await` points is one atomic step,
and steps interleave arbitrarily (a superset of the real microtask orders,
so safety results carry over).
-/
import Mathlib

namespace GeminiCli

/-- `MCPDiscoveryState` from mcp-client.ts, referenced by mcp-client-manager.ts. -/
inductive MCPDiscoveryState
  | NOT_STARTED
  | IN_PROGRESS
  | COMPLETED
deriving DecidableEq, Repr

/-! ## The coalescing discovery state machine (mcp-client-manager.ts)

Scenario of the spec's *coalesced completion* property: `discoverMcpTools("a")`
is in flight and `discoverMcpTools("b")` starts before `"a"`'s inner promise
settles.  We track only the fields the cited lines (91–152, 199–201) read or
write: `discoveryPromise` and `discoveryState`.

Promise identities: `pA` is call a's inner promise (lines 99–133), `pB` is
call b's, `pAll` is the merged `Promise.all([pA, pB])` built at line 136 when
call b finds `discoveryPromise` occupied. -/

/-- Identity of a promise held in the manager's `discoveryPromise` field. -/
inductive PExpr
  | pA
  | pB
  | pAll
deriving DecidableEq, Repr

/-- Event-loop state of the two-overlapping-calls scenario. -/
structure CoalState where
  /-- call a's synchronous section (guards, promise creation, lines 135–150) has run -/
  aStarted : Bool
  /-- call b's synchronous section has run -/
  bStarted : Bool
  /-- call a's inner promise `pA` has settled (`resolve()` in the `finally`, line 130) -/
  aSettled : Bool
  /-- call b's inner promise `pB` has settled -/
  bSettled : Bool
  /-- the `.then` continuation registered by call a (line 145) has not yet run -/
  contAPending : Bool
  /-- the `.then` continuation registered by call b has not yet run -/
  contBPending : Bool
  /-- which promise call b's continuation was registered on (`currentPromise`, line 144) -/
  contBOn : Option PExpr
  /-- the manager's `discoveryPromise` field -/
  discoveryPromise : Option PExpr
  /-- the manager's `discoveryState` field -/
  discoveryState : MCPDiscoveryState
deriving DecidableEq, Repr

/-- Initial manager state: fresh instance, nothing started. -/
def CoalState.init : CoalState :=
  { aStarted := false, bStarted := false, aSettled := false, bSettled := false
    contAPending := false, contBPending := false, contBOn := none
    discoveryPromise := none, discoveryState := .NOT_STARTED }

/-- Whether promise `p` has settled: `pAll = Promise.all([pA, pB])` settles
once both components have. -/
def CoalState.psettled (s : CoalState) : PExpr → Bool
  | .pA => s.aSettled
  | .pB => s.bSettled
  | .pAll => s.aSettled && s.bSettled

/-- Body of the `.then` continuation (lines 145–150): if the promise it was
registered on is still the current `discoveryPromise`, clear it and set
`discoveryState = COMPLETED`; otherwise do nothing.  The check and the write
are in one synchronous section (no `await` between them). -/
def runThenCont (s : CoalState) (q : PExpr) : CoalState :=
  if s.discoveryPromise = some q then
    { s with discoveryPromise := none, discoveryState := .COMPLETED }
  else s

/-- Scheduler events of the two-call scenario. -/
inductive CoalEvent
  | startA
  | startB
  | settleA
  | settleB
  | fireContA
  | fireContB
deriving DecidableEq, Repr

/-- One atomic event-loop step.  `none` means the event is not enabled.

* `startA`: call a's synchronous section.  `discoveryPromise` is empty, so
  lines 140–143 set `IN_PROGRESS` and store `pA`; line 145 registers the
  continuation on `currentPromise = pA`.
* `startB`: call b's synchronous section; the scenario guard `¬aSettled`
  says b starts while a is in flight.  Lines 135–139 merge into
  `Promise.all` when `discoveryPromise` is occupied, else take the
  first-call branch; the continuation is registered on the resulting
  `currentPromise`.
* `settleA`/`settleB`: the inner discovery work resolves (line 130); the
  scenario guard `bStarted` on `settleA` says a settles after b started.
* `fireContA`/`fireContB`: a registered continuation runs, possible only
  after the promise it is registered on has settled. -/
def coalStep (s : CoalState) : CoalEvent → Option CoalState
  | .startA =>
    if s.aStarted then none else
      some { s with aStarted := true, discoveryState := .IN_PROGRESS
                    discoveryPromise := some .pA, contAPending := true }
  | .startB =>
    if s.aStarted && !s.bStarted && !s.aSettled then
      match s.discoveryPromise with
      | some _ =>
        some { s with bStarted := true, discoveryPromise := some .pAll
                      contBPending := true, contBOn := some .pAll }
      | none =>
        some { s with bStarted := true, discoveryState := .IN_PROGRESS
                      discoveryPromise := some .pB
                      contBPending := true, contBOn := some .pB }
    else none
  | .settleA =>
    if s.aStarted && !s.aSettled && s.bStarted then
      some { s with aSettled := true }
    else none
  | .settleB =>
    if s.bStarted && !s.bSettled then
      some { s with bSettled := true }
    else none
  | .fireContA =>
    if s.contAPending && s.psettled .pA then
      some { runThenCont s .pA with contAPending := false }
    else none
  | .fireContB =>
    match s.contBOn with
    | some q =>
      if s.contBPending && s.psettled q then
        some { runThenCont s q with contBPending := false }
      else none
    | none => none

/-- Run a list of scheduler events from a state; fails if any event is not
enabled at its point in the sequence. -/
def coalRun : CoalState → List CoalEvent → Option CoalState
  | s, [] => some s
  | s, e :: es => (coalStep s e).bind (fun t => coalRun t es)

/-- All events, used to compute successor states. -/
def coalEvents : List CoalEvent :=
  [.startA, .startB, .settleA, .settleB, .fireContA, .fireContB]

/-- All states one enabled event away from `s`. -/
def coalSucc (s : CoalState) : List CoalState :=
  coalEvents.filterMap (coalStep s)

/-- One breadth-first expansion of a state list. -/
def coalExpand (l : List CoalState) : List CoalState :=
  (l ++ l.flatMap coalSucc).dedup

/-- The reachable-state overapproximation: iterating expansion from the
initial state.  Every event can fire at most once, so eight rounds reach the
fixpoint. -/
def coalReach : List CoalState :=
  coalExpand^[8] [CoalState.init]

/-- `getDiscoveryState()` (mcp-client-manager.ts lines 199–201). -/
def getDiscoveryState (s : CoalState) : MCPDiscoveryState :=
  s.discoveryState

theorem coalReach_init : CoalState.init ∈ coalReach := by decide

theorem coalReach_closed :
    ∀ s ∈ coalReach, ∀ t ∈ coalSucc s, t ∈ coalReach := by decide

theorem coalStep_mem_succ {s t : CoalState} {e : CoalEvent}
    (h : coalStep s e = some t) : t ∈ coalSucc s := by
  have he : e ∈ coalEvents := by cases e <;> simp [coalEvents]
  exact List.mem_filterMap.2 ⟨e, he, h⟩

theorem coalRun_reach {s t : CoalState} {evs : List CoalEvent}
    (hs : s ∈ coalReach) (h : coalRun s evs = some t) : t ∈ coalReach := by
  induction evs generalizing s with
  | nil =>
    simp only [coalRun, Option.some_inj] at h
    exact h ▸ hs
  | cons e es ih =>
    simp only [coalRun, Option.bind_eq_some] at h
    obtain ⟨u, hu, hrun⟩ := h
    exact ih (coalReach_closed s hs u (coalStep_mem_succ hu)) hrun

/-- The coalesced-completion property, checked on one state. -/
def coalProp (s : CoalState) : Bool :=
  (decide (s.aStarted = true → (s.aSettled && s.bSettled) = false →
    getDiscoveryState s = .IN_PROGRESS)) &&
  (decide (getDiscoveryState s = .COMPLETED →
    s.aSettled = true ∧ s.bSettled = true))

theorem coalReach_prop : ∀ s ∈ coalReach, coalProp s = true := by decide

/-- C1: with `discoverMcpTools("a")` in flight when `discoverMcpTools("b")`
starts, `getDiscoveryState()` reports `IN_PROGRESS` continuously from call
a's start until both inner discovery promises have settled, and reports
`COMPLETED` only after both have settled — never while a call of the batch
is outstanding. -/
theorem discovery_coalesced_completion {evs : List CoalEvent} {s : CoalState}
    (h : coalRun CoalState.init evs = some s) :
    (s.aStarted = true → ¬(s.aSettled = true ∧ s.bSettled = true) →
      getDiscoveryState s = .IN_PROGRESS) ∧
    (getDiscoveryState s = .COMPLETED → s.aSettled = true ∧ s.bSettled = true) := by
  have hmem : s ∈ coalReach := coalRun_reach coalReach_init h
  have hp := coalReach_prop s hmem
  simp only [coalProp, Bool.and_eq_true, decide_eq_true_eq] at hp
  refine ⟨fun ha hns => ?_, hp.2⟩
  refine hp.1 ha ?_
  cases h1 : s.aSettled <;> cases h2 : s.bSettled <;> simp_all

/-- The state reached after call a's synchronous section alone. -/
def coalWitnessState : CoalState :=
  { CoalState.init with
      aStarted := true
      discoveryState := .IN_PROGRESS
      discoveryPromise := some .pA
      contAPending := true }

/-- Witness for C1: applied to the one-event schedule `[startA]`, the theorem
yields that the reported state is `IN_PROGRESS` while call a is outstanding. -/
theorem discovery_coalesced_completion_witness :
    getDiscoveryState coalWitnessState = .IN_PROGRESS :=
  (@discovery_coalesced_completion [CoalEvent.startA] coalWitnessState
    (by decide)).1 (by decide) (by decide)

/-! ## Two discovery calls for the same server name (mcp-client-manager.ts)

Scenario of the spec's *at-most-one handle* property: `discoverMcpTools("s",
cfg)` is called twice; the second call may start while the first is still in
flight.  We track the map entry for `"s"`, each call's position between the
`await` points of lines 102 (`await this.disconnectClient(name)`) and
115–116 (`await client.connect(); await client.discover(...)`), and the
disconnect history of each constructed `McpClient`.

Handles: `h1` is the `McpClient` constructed by the first call (line 104),
`h2` the one constructed by the second. -/

/-- Identity of a constructed `McpClient` for server `"s"`. -/
inductive HandleId
  | h1
  | h2
deriving DecidableEq, Repr

/-- Program counter of one `discoverMcpTools("s", cfg)` call. -/
inductive CallPC
  /-- not yet invoked -/
  | idle
  /-- synchronous prefix ran; suspended at `await this.disconnectClient(name)` (line 102) -/
  | awaitingDisconnect
  /-- constructed its handle and wrote it into the map (lines 104–112); connect/discover outstanding -/
  | running
  /-- the call's inner promise has resolved (line 130) -/
  | settled
deriving DecidableEq, Repr

/-- Event-loop state of the duplicate-call scenario. -/
structure DupState where
  pc1 : CallPC
  pc2 : CallPC
  /-- `this.clients.get("s")`: which handle the map currently holds for `"s"` -/
  mapS : Option HandleId
  /-- `h1.disconnect()` has been invoked (line 82) -/
  h1DiscInvoked : Bool
  /-- the promise returned by `h1.disconnect()` has settled -/
  h1DiscSettled : Bool
  h2DiscInvoked : Bool
  h2DiscSettled : Bool
  /-- which handle's disconnect call 1's `await` at line 102 is waiting on
  (`none`: `disconnectClient` found no entry and resolved at once) -/
  await1 : Option HandleId
  await2 : Option HandleId
  /-- recorded when call 2 constructs `h2`: was `h1.disconnect()` invoked by then? -/
  snapInvoked : Option Bool
  /-- recorded when call 2 constructs `h2`: had `h1.disconnect()` settled by then? -/
  snapSettled : Option Bool
  /-- recorded at call 2's start: had call 1 already settled? -/
  seq2 : Bool
deriving DecidableEq, Repr

/-- Initial state: no handle registered for `"s"`, neither call issued. -/
def DupState.init : DupState :=
  { pc1 := .idle, pc2 := .idle, mapS := none
    h1DiscInvoked := false, h1DiscSettled := false
    h2DiscInvoked := false, h2DiscSettled := false
    await1 := none, await2 := none
    snapInvoked := none, snapSettled := none, seq2 := false }

/-- Mark `disconnect()` as invoked on handle `h`. -/
def DupState.invokeDisc (s : DupState) : HandleId → DupState
  | .h1 => { s with h1DiscInvoked := true }
  | .h2 => { s with h2DiscInvoked := true }

/-- Synchronous part of `disconnectClient("s")` (lines 76–89): if the map
holds an entry, delete it and invoke its `disconnect()`; the caller's `await`
then waits on that disconnect (or on an immediately-resolved promise when no
entry existed).  Returns the new state and the awaited target. -/
def disconnectClientSync (s : DupState) : DupState × Option HandleId :=
  match s.mapS with
  | some h => ((s.invokeDisc h) |> (fun t => { t with mapS := none }), some h)
  | none => (s, none)

/-- Whether the promise a call's line-102 `await` waits on has settled. -/
def DupState.awaitReady (s : DupState) : Option HandleId → Bool
  | none => true
  | some .h1 => s.h1DiscSettled
  | some .h2 => s.h2DiscSettled

/-- Scheduler events of the duplicate-call scenario. -/
inductive DupEvent
  | start1
  | start2
  | discSettleH1
  | discSettleH2
  | resume1
  | resume2
  | settleCall1
  | settleCall2
deriving DecidableEq, Repr

/-- One atomic event-loop step of the duplicate-call scenario.

* `start1`/`start2`: the call's synchronous prefix: guards pass (trusted
  folder, active extension) and `disconnectClient("s")` runs its synchronous
  part; the call suspends at line 102.  `start2` requires `start1` to have
  happened (the calls are issued in order) and records whether call 1 had
  already settled.
* `discSettleH1`/`discSettleH2`: an invoked `disconnect()` settles.
* `resume1`/`resume2`: the line-102 `await` resumes once its promise has
  settled: the call constructs its `McpClient` and writes it into the map
  (lines 104–112), then suspends in connect/discover.  `resume2` additionally
  requires call 1 to have left `awaitingDisconnect`: call 1's awaited promise
  was ready no later than call 2's, and the microtask queue is FIFO, so call
  1 resumes first.
* `settleCall1`/`settleCall2`: connect/discover finish (success, or failure
  caught at lines 118–128); the call's inner promise resolves (line 130). -/
def dupStep (s : DupState) : DupEvent → Option DupState
  | .start1 =>
    if s.pc1 = .idle then
      let (t, aw) := disconnectClientSync s
      some { t with pc1 := .awaitingDisconnect, await1 := aw }
    else none
  | .start2 =>
    if s.pc2 = .idle && s.pc1 ≠ .idle then
      let (t, aw) := disconnectClientSync s
      some { t with pc2 := .awaitingDisconnect, await2 := aw
                    seq2 := s.pc1 = .settled }
    else none
  | .discSettleH1 =>
    if s.h1DiscInvoked && !s.h1DiscSettled then
      some { s with h1DiscSettled := true }
    else none
  | .discSettleH2 =>
    if s.h2DiscInvoked && !s.h2DiscSettled then
      some { s with h2DiscSettled := true }
    else none
  | .resume1 =>
    if s.pc1 = .awaitingDisconnect && s.awaitReady s.await1 then
      some { s with pc1 := .running, mapS := some .h1 }
    else none
  | .resume2 =>
    if s.pc2 = .awaitingDisconnect && s.awaitReady s.await2 &&
        s.pc1 ≠ .awaitingDisconnect && s.pc1 ≠ .idle then
      some { s with pc2 := .running, mapS := some .h2
                    snapInvoked := some s.h1DiscInvoked
                    snapSettled := some s.h1DiscSettled }
    else none
  | .settleCall1 =>
    if s.pc1 = .running then some { s with pc1 := .settled } else none
  | .settleCall2 =>
    if s.pc2 = .running then some { s with pc2 := .settled } else none

/-- Run a list of scheduler events from a state. -/
def dupRun : DupState → List DupEvent → Option DupState
  | s, [] => some s
  | s, e :: es => (dupStep s e).bind (fun t => dupRun t es)

def dupEvents : List DupEvent :=
  [.start1, .start2, .discSettleH1, .discSettleH2,
   .resume1, .resume2, .settleCall1, .settleCall2]

def dupSucc (s : DupState) : List DupState :=
  dupEvents.filterMap (dupStep s)

def dupExpand (l : List DupState) : List DupState :=
  (l ++ l.flatMap dupSucc).dedup

/-- Reachable states of the duplicate-call scenario (every event fires at
most once, so ten expansion rounds reach the fixpoint). -/
def dupReach : List DupState :=
  dupExpand^[10] [DupState.init]

theorem dupReach_init : DupState.init ∈ dupReach := by decide

theorem dupReach_closed :
    ∀ s ∈ dupReach, ∀ t ∈ dupSucc s, t ∈ dupReach := by decide

theorem dupStep_mem_succ {s t : DupState} {e : DupEvent}
    (h : dupStep s e = some t) : t ∈ dupSucc s := by
  have he : e ∈ dupEvents := by cases e <;> simp [dupEvents]
  exact List.mem_filterMap.2 ⟨e, he, h⟩

theorem dupRun_reach {s t : DupState} {evs : List DupEvent}
    (hs : s ∈ dupReach) (h : dupRun s evs = some t) : t ∈ dupReach := by
  induction evs generalizing s with
  | nil =>
    simp only [dupRun, Option.some_inj] at h
    exact h ▸ hs
  | cons e es ih =>
    simp only [dupRun, Option.bind_eq_some] at h
    obtain ⟨u, hu, hrun⟩ := h
    exact ih (dupReach_closed s hs u (dupStep_mem_succ hu)) hrun

/-- The amended at-most-one-handle property, checked on one state. -/
def dupProp (s : DupState) : Bool :=
  decide ((s.pc1 = .settled ∧ s.pc2 = .settled → s.mapS = some .h2) ∧
    (s.seq2 = true → s.pc2 ≠ .idle →
      s.snapInvoked ≠ some false ∧ s.snapSettled ≠ some false))

theorem dupReach_prop : ∀ s ∈ dupReach, dupProp s = true := by decide

/-- Final state of the quick-succession schedule
`[start1, start2, resume1, resume2, settleCall1, settleCall2]`. -/
def dupRaceFinal : DupState :=
  { pc1 := .settled, pc2 := .settled, mapS := some .h2
    h1DiscInvoked := false, h1DiscSettled := false
    h2DiscInvoked := false, h2DiscSettled := false
    await1 := none, await2 := none
    snapInvoked := some false, snapSettled := some false
    seq2 := false }

/-- C3 counterexample: in the quick-succession schedule — call 2 starts while
call 1 is still awaiting `disconnectClient` — both calls settle and the map
holds call 2's handle, yet `h1.disconnect()` had not been invoked when `h2`
was constructed and written into the map, and is never invoked at all: the
first call's handle is overwritten while still live. -/
theorem duplicate_discovery_race_counterexample :
    dupRun DupState.init
        [.start1, .start2, .resume1, .resume2, .settleCall1, .settleCall2] =
      some dupRaceFinal ∧
    dupRaceFinal.pc1 = .settled ∧ dupRaceFinal.pc2 = .settled ∧
    dupRaceFinal.mapS = some .h2 ∧
    ¬(dupRaceFinal.snapInvoked ≠ some false) ∧
    dupRaceFinal.h1DiscInvoked = false := by decide

/-- C3 (amended): across all schedules of two `discoverMcpTools("s", cfg)`
calls, once both calls have settled the client map holds exactly one handle
for `"s"` — the second call's; and whenever the second call starts only after
the first has settled, `h1.disconnect()` has been invoked and its promise has
settled before `h2` is constructed.  (As stated, the claim fails: see the
counterexample, where the overlapping schedule constructs `h2` without ever
invoking `h1.disconnect()`.) -/
theorem duplicate_discovery_amended {evs : List DupEvent} {s : DupState}
    (h : dupRun DupState.init evs = some s) :
    (s.pc1 = .settled ∧ s.pc2 = .settled → s.mapS = some .h2) ∧
    (s.seq2 = true → s.pc2 ≠ .idle →
      s.snapInvoked ≠ some false ∧ s.snapSettled ≠ some false) := by
  have hmem : s ∈ dupReach := dupRun_reach dupReach_init h
  have hp := dupReach_prop s hmem
  simpa only [dupProp, decide_eq_true_eq] using hp

/-- Witness for C3's amended theorem: the sequential schedule, where call 2
starts after call 1 settled; the map ends with call 2's handle and the
snapshot shows `h1.disconnect()` invoked and settled before `h2` existed. -/
theorem duplicate_discovery_amended_witness :
    ({ pc1 := .settled, pc2 := .settled, mapS := some .h2
       h1DiscInvoked := true, h1DiscSettled := true
       h2DiscInvoked := false, h2DiscSettled := false
       await1 := none, await2 := some .h1
       snapInvoked := some true, snapSettled := some true
       seq2 := true } : DupState).mapS = some .h2 ∧
    (some true ≠ some false ∧ some true ≠ some false) := by
  have h := @duplicate_discovery_amended
    [DupEvent.start1, .resume1, .settleCall1, .start2, .discSettleH1,
     .resume2, .settleCall2]
    { pc1 := .settled, pc2 := .settled, mapS := some .h2
      h1DiscInvoked := true, h1DiscSettled := true
      h2DiscInvoked := false, h2DiscSettled := false
      await1 := none, await2 := some .h1
      snapInvoked := some true, snapSettled := some true
      seq2 := true } (by decide)
  exact ⟨h.1 (by decide), h.2 (by decide) (by decide)⟩

/-! ## Functional model of the manager (mcp-client-manager.ts)

For the claims about final states, error isolation and the guard clauses —
not about interleavings — we embed `McpClientManager` as a state-passing
function.  `Promise.all` over the per-server discoveries is sequentialized
as a left fold: each discovery touches only its own key of the client map
and appends to the logs, so the final map and logs are
interleaving-insensitive.  Rejections of the external `McpClient` methods
are explicit `Except` errors; the `try`/`catch` placement mirrors the
source, and a function returning `.ok` on every input is one whose promise
never rejects. -/

/-- `MCPServerConfig`, reduced to the field the manager reads:
`config.extension?.isActive` (`none` when there is no extension
back-reference). -/
structure MCPServerConfig where
  extensionIsActive : Option Bool
deriving DecidableEq, Repr

/-- A constructed `McpClient` handle (line 104): the manager treats it
opaquely; the stamp distinguishes handles created at different times. -/
structure McpClient where
  serverName : String
  stamp : Nat
deriving DecidableEq, Repr

/-- Observable state of one `McpClientManager` plus its collaborators:
the feedback sink (`coreEvents.emitFeedback`), the debug/console logs, and
the tool registry (written by `client.discover`). -/
structure MgrState where
  /-- `this.clients` -/
  clients : List (String × McpClient)
  /-- `this.discoveryState` -/
  discoveryState : MCPDiscoveryState
  /-- messages sent to `coreEvents.emitFeedback` as `(level, message)` -/
  feedback : List (String × String)
  /-- `debugLogger.warn` messages (disconnectClient catch, line 84) -/
  warnLog : List String
  /-- `console.error` messages (stop catch, line 188) -/
  errorLog : List String
  /-- server names registered into the tool registry by `client.discover` -/
  registry : List String
  /-- fresh-stamp source for newly constructed handles -/
  nextStamp : Nat
deriving DecidableEq, Repr

/-- Environment: the `Config` reads and the behaviour of the external
`McpClient` contract (which of `connect`/`discover`/`disconnect` reject). -/
structure CliEnv where
  /-- `cliConfig.isTrustedFolder()` -/
  trusted : Bool
  /-- `cliConfig.getMcpServers()` -/
  mcpServers : List (String × MCPServerConfig)
  /-- `cliConfig.getMcpServerCommand()` -/
  mcpServerCommand : Option String
  connectOk : String → Bool
  discoverOk : String → Bool
  disconnectOk : String → Bool

/-- `Map.get`. -/
def mapGet : List (String × McpClient) → String → Option McpClient
  | [], _ => none
  | p :: ps, n => if p.1 = n then some p.2 else mapGet ps n

/-- `Map.delete`. -/
def mapDelete (m : List (String × McpClient)) (n : String) :
    List (String × McpClient) :=
  m.filter (fun p => decide (p.1 ≠ n))

/-- `Map.set` (lookup-equivalent form: remove the key, append the binding). -/
def mapSet (m : List (String × McpClient)) (n : String) (v : McpClient) :
    List (String × McpClient) :=
  mapDelete m n ++ [(n, v)]

/-- `client.connect()` (external contract; may reject). -/
def clientConnect (env : CliEnv) (name : String) : Except String Unit :=
  if env.connectOk name then .ok () else .error ("connect failed: " ++ name)

/-- `client.discover(cliConfig)` (external contract; registers the server's
tools into the registry on success, may reject). -/
def clientDiscover (env : CliEnv) (name : String) (st : MgrState) :
    Except String MgrState :=
  if env.discoverOk name then
    .ok { st with registry := st.registry ++ [name] }
  else .error ("discover failed: " ++ name)

/-- `client.disconnect()` (external contract; may reject). -/
def clientDisconnect (env : CliEnv) (name : String) : Except String Unit :=
  if env.disconnectOk name then .ok ()
  else .error ("disconnect failed: " ++ name)

/-- The feedback message of lines 121–127. -/
def discoveryFeedbackMsg (name e : String) : String :=
  "Error during discovery for server " ++ name ++ ": " ++ e

/-- `disconnectClient` (lines 76–89): if a handle is registered, delete it
from the map and await its `disconnect()`, catching and warn-logging a
rejection. -/
def disconnectClientRun (env : CliEnv) (st : MgrState) (name : String) :
    MgrState :=
  match mapGet st.clients name with
  | some _ =>
    let st1 := { st with clients := mapDelete st.clients name }
    match clientDisconnect env name with
    | .ok _ => st1
    | .error e =>
      { st1 with warnLog := st1.warnLog ++ ["Error stopping client " ++ name ++ ": " ++ e] }
  | none => st

/-- Lines 104–112: construct the new `McpClient` and write it into the map. -/
def registerNewClient (st1 : MgrState) (name : String) : MgrState :=
  { st1 with
      clients := mapSet st1.clients name { serverName := name, stamp := st1.nextStamp }
      nextStamp := st1.nextStamp + 1 }

/-- Lines 114–128: `await client.connect(); await client.discover(...)`, the
failure caught and reported through `coreEvents.emitFeedback`. -/
def discoverAttempt (env : CliEnv) (name : String) (st2 : MgrState) : MgrState :=
  match (clientConnect env name >>= fun _ => clientDiscover env name st2 :
      Except String MgrState) with
  | .ok s => s
  | .error e =>
    { st2 with feedback := st2.feedback ++ [("error", discoveryFeedbackMsg name e)] }

/-- The state after one guarded-in `discoverMcpTools` body (lines 99–150),
sequentialized: `discoveryState` to `IN_PROGRESS` (line 141, the call being
its own batch), `disconnectClient` (line 102), construct and register the
handle (lines 104–112), the connect/discover attempt (lines 114–128), and
`COMPLETED` when the inner promise resolves (lines 145–150). -/
def discoverOneResult (env : CliEnv) (st : MgrState) (name : String) : MgrState :=
  { discoverAttempt env name
      (registerNewClient
        (disconnectClientRun env { st with discoveryState := .IN_PROGRESS } name)
        name)
    with discoveryState := .COMPLETED }

/-- `discoverMcpTools` (lines 91–152): guards (lines 92–97), then the body.
The interleaving-sensitive batch merging is the `CoalState` model above. -/
def discoverMcpToolsRun (env : CliEnv) (st : MgrState) (name : String)
    (config : MCPServerConfig) : Except String MgrState :=
  if env.trusted = false then .ok st
  else if config.extensionIsActive = some false then .ok st
  else .ok (discoverOneResult env st name)

/-- One disconnection of `stop` (lines 183–193): await the handle's
`disconnect()` in its own `try`/`catch`, logging a rejection to
`console.error`. -/
def stopDisconnectStep (env : CliEnv) (acc : MgrState) (p : String × McpClient) :
    MgrState :=
  match clientDisconnect env p.1 with
  | .ok _ => acc
  | .error e =>
    { acc with errorLog := acc.errorLog ++ ["Error stopping client " ++ p.1 ++ ": " ++ e] }

/-- `stop` (lines 182–197): await every handle's `disconnect()`, each
failure caught and logged, then clear the map. -/
def stopRun (env : CliEnv) (st : MgrState) : Except String MgrState :=
  .ok { st.clients.foldl (stopDisconnectStep env) st with clients := [] }

/-- Modelled from the spec: `populateMcpServerCommand` is defined in
`mcp-client.ts`, which is not among the provided sources.  Per §4.1 the
effective server set is the configuration servers plus any command-line
override; with no override the set is the configured one. -/
def populateMcpServerCommand (servers : List (String × MCPServerConfig))
    (cmd : Option String) : List (String × MCPServerConfig) :=
  match cmd with
  | none => servers
  | some c => servers ++ [(c, { extensionIsActive := none })]

/-- `discoverAllMcpTools` (lines 159–176): trusted-folder guard, `stop()`,
compute the effective server set, then discover every server (the
`Promise.all` sequentialized as a fold). -/
def discoverAllMcpToolsRun (env : CliEnv) (st : MgrState) :
    Except String MgrState :=
  if env.trusted = false then .ok st
  else
    stopRun env st >>= fun st1 =>
      (populateMcpServerCommand env.mcpServers env.mcpServerCommand).foldlM
        (fun acc nc => discoverMcpToolsRun env acc nc.1 nc.2) st1

/-- `getDiscoveryState()` (lines 199–201) on the functional model. -/
def MgrState.getDiscoveryState (st : MgrState) : MCPDiscoveryState :=
  st.discoveryState

theorem mapGet_append (a b : List (String × McpClient)) (n : String) :
    mapGet (a ++ b) n =
      match mapGet a n with
      | some v => some v
      | none => mapGet b n := by
  induction a with
  | nil => rfl
  | cons p ps ih => by_cases h : p.1 = n <;> simp [mapGet, h, ih]

theorem mapGet_mapDelete (m : List (String × McpClient)) (n m' : String) :
    mapGet (mapDelete m n) m' = if m' = n then none else mapGet m m' := by
  induction m with
  | nil => simp only [mapDelete, List.filter_nil, mapGet]; split <;> rfl
  | cons p ps ih =>
    by_cases h1 : p.1 = n <;> by_cases h2 : m' = n <;>
      by_cases h3 : p.1 = m' <;>
      simp_all [mapDelete, mapGet, List.filter_cons]

theorem mapGet_mapSet (m : List (String × McpClient)) (n : String)
    (v : McpClient) (m' : String) :
    mapGet (mapSet m n v) m' = if m' = n then some v else mapGet m m' := by
  by_cases h : m' = n
  · simp [mapSet, mapGet_append, mapGet_mapDelete, mapGet, h]
  · have h' : ¬n = m' := fun e => h e.symm
    cases hm : mapGet m m' <;>
      simp [mapSet, mapGet_append, mapGet_mapDelete, mapGet, h, h', hm]

theorem disconnectClientRun_frame (env : CliEnv) (st : MgrState)
    (name : String) :
    (∀ m, m ≠ name →
      mapGet (disconnectClientRun env st name).clients m = mapGet st.clients m) ∧
    (disconnectClientRun env st name).feedback = st.feedback ∧
    (disconnectClientRun env st name).nextStamp = st.nextStamp ∧
    (disconnectClientRun env st name).discoveryState = st.discoveryState := by
  unfold disconnectClientRun
  cases hg : mapGet st.clients name with
  | none => exact ⟨fun m _ => rfl, rfl, rfl, rfl⟩
  | some c =>
    cases hd : clientDisconnect env name with
    | ok _ => exact ⟨fun m h => by simp [mapGet_mapDelete, h], rfl, rfl, rfl⟩
    | error e => exact ⟨fun m h => by simp [mapGet_mapDelete, h], rfl, rfl, rfl⟩

theorem registerNewClient_clients (st1 : MgrState) (name m : String) :
    mapGet (registerNewClient st1 name).clients m =
      if m = name then some { serverName := name, stamp := st1.nextStamp }
      else mapGet st1.clients m := by
  simp [registerNewClient, mapGet_mapSet]

/-- Case analysis of the connect-then-discover attempt. -/
theorem discoverAttempt_eq (env : CliEnv) (name : String) (st2 : MgrState) :
    (env.connectOk name = true → env.discoverOk name = true →
      discoverAttempt env name st2 = { st2 with registry := st2.registry ++ [name] }) ∧
    (env.connectOk name = false →
      discoverAttempt env name st2 =
        { st2 with feedback := st2.feedback ++
            [("error", discoveryFeedbackMsg name ("connect failed: " ++ name))] }) ∧
    (env.connectOk name = true → env.discoverOk name = false →
      discoverAttempt env name st2 =
        { st2 with feedback := st2.feedback ++
            [("error", discoveryFeedbackMsg name ("discover failed: " ++ name))] }) := by
  unfold discoverAttempt clientConnect clientDiscover
  cases hc : env.connectOk name <;> cases hd : env.discoverOk name <;>
    simp [Bind.bind, Except.bind]

/-- Clients map of the one-call result: the server gets the newly
constructed handle; every other entry is untouched. -/
theorem discoverOneResult_clients (env : CliEnv) (st : MgrState)
    (name m : String) :
    mapGet (discoverOneResult env st name).clients m =
      if m = name then
        some { serverName := name,
               stamp := (disconnectClientRun env
                 { st with discoveryState := .IN_PROGRESS } name).nextStamp }
      else mapGet st.clients m := by
  obtain ⟨hframe, -, -, -⟩ :=
    disconnectClientRun_frame env { st with discoveryState := .IN_PROGRESS } name
  obtain ⟨hattOk, hattC, hattD⟩ := discoverAttempt_eq env name
    (registerNewClient
      (disconnectClientRun env { st with discoveryState := .IN_PROGRESS } name) name)
  have hclients : (discoverOneResult env st name).clients =
      (registerNewClient
        (disconnectClientRun env { st with discoveryState := .IN_PROGRESS } name)
        name).clients := by
    unfold discoverOneResult
    cases hc : env.connectOk name
    · rw [hattC hc]
    · cases hd : env.discoverOk name
      · rw [hattD hc hd]
      · rw [hattOk hc hd]
  rw [hclients, registerNewClient_clients]
  rcases eq_or_ne m name with rfl | hne
  · simp
  · rw [if_neg hne, if_neg hne]
    exact hframe m hne

/-- Feedback of the one-call result, by connect/discover outcome. -/
theorem discoverOneResult_feedback (env : CliEnv) (st : MgrState)
    (name : String) :
    (env.connectOk name = true → env.discoverOk name = true →
      (discoverOneResult env st name).feedback = st.feedback) ∧
    (env.connectOk name = false →
      (discoverOneResult env st name).feedback =
        st.feedback ++ [("error", discoveryFeedbackMsg name ("connect failed: " ++ name))]) ∧
    (env.connectOk name = true → env.discoverOk name = false →
      (discoverOneResult env st name).feedback =
        st.feedback ++ [("error", discoveryFeedbackMsg name ("discover failed: " ++ name))]) := by
  obtain ⟨-, hfb, -, -⟩ :=
    disconnectClientRun_frame env { st with discoveryState := .IN_PROGRESS } name
  obtain ⟨hattOk, hattC, hattD⟩ := discoverAttempt_eq env name
    (registerNewClient
      (disconnectClientRun env { st with discoveryState := .IN_PROGRESS } name) name)
  have hRfb : (registerNewClient
      (disconnectClientRun env { st with discoveryState := .IN_PROGRESS } name)
      name).feedback = st.feedback := hfb
  refine ⟨fun hc hd => ?_, fun hc => ?_, fun hc hd => ?_⟩
  · unfold discoverOneResult
    rw [hattOk hc hd]
    exact hRfb
  · unfold discoverOneResult
    rw [hattC hc]
    exact congrArg (· ++ [("error", discoveryFeedbackMsg name ("connect failed: " ++ name))]) hRfb
  · unfold discoverOneResult
    rw [hattD hc hd]
    exact congrArg (· ++ [("error", discoveryFeedbackMsg name ("discover failed: " ++ name))]) hRfb

/-- One `discoverMcpTools` call always resolves; it preserves every existing
map entry and every emitted feedback message; and past the guards it leaves
a registered handle for its own server and reports a connect/discover
failure through the feedback emitter. -/
theorem discoverMcpToolsRun_step (env : CliEnv) (st : MgrState)
    (name : String) (config : MCPServerConfig) (hT : env.trusted = true) :
    ∃ t, discoverMcpToolsRun env st name config = .ok t ∧
      (∀ m, (mapGet st.clients m).isSome = true →
        (mapGet t.clients m).isSome = true) ∧
      (∀ p, p ∈ st.feedback → p ∈ t.feedback) ∧
      (config.extensionIsActive ≠ some false →
        (mapGet t.clients name).isSome = true ∧
        ((env.connectOk name = false ∨ env.discoverOk name = false) →
          ("error", discoveryFeedbackMsg name ("connect failed: " ++ name)) ∈ t.feedback ∨
          ("error", discoveryFeedbackMsg name ("discover failed: " ++ name)) ∈ t.feedback)) := by
  by_cases hA : config.extensionIsActive = some false
  · refine ⟨st, ?_, fun m h => h, fun p h => h, fun h => absurd hA h⟩
    simp [discoverMcpToolsRun, hT, hA]
  · have heq : discoverMcpToolsRun env st name config =
        .ok (discoverOneResult env st name) := by
      simp [discoverMcpToolsRun, hT, hA]
    obtain ⟨hfbOk, hfbC, hfbD⟩ := discoverOneResult_feedback env st name
    refine ⟨discoverOneResult env st name, heq, ?_, ?_, ?_⟩
    · intro m hm
      rw [discoverOneResult_clients]
      rcases eq_or_ne m name with rfl | hne
      · simp
      · rw [if_neg hne]; exact hm
    · intro p hp
      cases hc : env.connectOk name
      · rw [hfbC hc]; exact List.mem_append_left _ hp
      · cases hd : env.discoverOk name
        · rw [hfbD hc hd]; exact List.mem_append_left _ hp
        · rw [hfbOk hc hd]; exact hp
    · intro _
      refine ⟨?_, fun hfail => ?_⟩
      · rw [discoverOneResult_clients]; simp
      · cases hc : env.connectOk name
        · refine Or.inl ?_
          rw [hfbC hc]
          exact List.mem_append_right _ (List.mem_singleton.2 rfl)
        · cases hd : env.discoverOk name
          · refine Or.inr ?_
            rw [hfbD hc hd]
            exact List.mem_append_right _ (List.mem_singleton.2 rfl)
          · rcases hfail with h | h
            · rw [hc] at h; exact absurd h (by decide)
            · rw [hd] at h; exact absurd h (by decide)

/-- The discovery fold of `discoverAllMcpTools` always resolves; it preserves
existing entries and feedback, and registers (or failure-reports) every
active server of the processed list. -/
theorem discoverFold_spec (env : CliEnv) (hT : env.trusted = true) :
    ∀ (l : List (String × MCPServerConfig)) (st : MgrState),
    ∃ t, l.foldlM (fun acc nc => discoverMcpToolsRun env acc nc.1 nc.2) st = .ok t ∧
      (∀ m, (mapGet st.clients m).isSome = true →
        (mapGet t.clients m).isSome = true) ∧
      (∀ p, p ∈ st.feedback → p ∈ t.feedback) ∧
      (∀ nc ∈ l, nc.2.extensionIsActive ≠ some false →
        (mapGet t.clients nc.1).isSome = true ∧
        ((env.connectOk nc.1 = false ∨ env.discoverOk nc.1 = false) →
          ("error", discoveryFeedbackMsg nc.1 ("connect failed: " ++ nc.1)) ∈ t.feedback ∨
          ("error", discoveryFeedbackMsg nc.1 ("discover failed: " ++ nc.1)) ∈ t.feedback)) := by
  intro l
  induction l with
  | nil => exact fun st => ⟨st, rfl, fun m h => h, fun p h => h, by simp⟩
  | cons nc rest ih =>
    intro st
    obtain ⟨t1, h1, hmap1, hfb1, hself1⟩ :=
      discoverMcpToolsRun_step env st nc.1 nc.2 hT
    obtain ⟨t, hrun, hmap, hfb, hall⟩ := ih t1
    refine ⟨t, ?_, fun m h => hmap m (hmap1 m h), fun p h => hfb p (hfb1 p h), ?_⟩
    · simp only [List.foldlM, h1]; exact hrun
    · intro mc hmc hact
      rcases List.mem_cons.1 hmc with rfl | hmem
      · obtain ⟨hreg, hrep⟩ := hself1 hact
        exact ⟨hmap _ hreg, fun hfail =>
          (hrep hfail).elim (fun h => Or.inl (hfb _ h)) (fun h => Or.inr (hfb _ h))⟩
      · exact hall mc hmem hact

/-- C4: `discoverMcpTools` and `discoverAllMcpTools` always resolve and never
reject; a server whose `connect()` or `discover()` rejects has the error
caught and reported through the feedback emitter, does not abort the batch,
and every other (active) server of the effective set still ends up with a
registered handle. -/
theorem discovery_never_rejects_and_isolates (env : CliEnv) (st : MgrState)
    (name : String) (config : MCPServerConfig) :
    (∃ t, discoverMcpToolsRun env st name config = .ok t) ∧
    (∃ t, discoverAllMcpToolsRun env st = .ok t) ∧
    (env.trusted = true →
      ∃ t, discoverAllMcpToolsRun env st = .ok t ∧
        ∀ nc ∈ populateMcpServerCommand env.mcpServers env.mcpServerCommand,
          nc.2.extensionIsActive ≠ some false →
          (mapGet t.clients nc.1).isSome = true ∧
          ((env.connectOk nc.1 = false ∨ env.discoverOk nc.1 = false) →
            ("error", discoveryFeedbackMsg nc.1 ("connect failed: " ++ nc.1)) ∈ t.feedback ∨
            ("error", discoveryFeedbackMsg nc.1 ("discover failed: " ++ nc.1)) ∈ t.feedback)) := by
  have hall : env.trusted = true →
      ∃ t, discoverAllMcpToolsRun env st = .ok t ∧
        ∀ nc ∈ populateMcpServerCommand env.mcpServers env.mcpServerCommand,
          nc.2.extensionIsActive ≠ some false →
          (mapGet t.clients nc.1).isSome = true ∧
          ((env.connectOk nc.1 = false ∨ env.discoverOk nc.1 = false) →
            ("error", discoveryFeedbackMsg nc.1 ("connect failed: " ++ nc.1)) ∈ t.feedback ∨
            ("error", discoveryFeedbackMsg nc.1 ("discover failed: " ++ nc.1)) ∈ t.feedback) := by
    intro hT
    obtain ⟨t, hrun, _, _, hall⟩ :=
      discoverFold_spec env hT
        (populateMcpServerCommand env.mcpServers env.mcpServerCommand)
        { st.clients.foldl (stopDisconnectStep env) st with clients := [] }
    refine ⟨t, ?_, hall⟩
    simp only [discoverAllMcpToolsRun, hT, stopRun]
    simpa using hrun
  refine ⟨?_, ?_, hall⟩
  · cases hT : env.trusted with
    | false => exact ⟨st, by simp [discoverMcpToolsRun, hT]⟩
    | true =>
      obtain ⟨t, h, _⟩ := discoverMcpToolsRun_step env st name config hT
      exact ⟨t, h⟩
  · cases hT : env.trusted with
    | false => exact ⟨st, by simp [discoverAllMcpToolsRun, hT]⟩
    | true => obtain ⟨t, h, _⟩ := hall hT; exact ⟨t, h⟩

/-- Witness for C4: two servers, `x` failing `connect()`, `y` healthy; the
batch resolves, `y` (and even `x`) keep registered handles, and the failure
of `x` is reported through the feedback emitter. -/
def c4Env : CliEnv :=
  { trusted := true
    mcpServers := [("x", { extensionIsActive := none }),
                   ("y", { extensionIsActive := none })]
    mcpServerCommand := none
    connectOk := fun n => decide (n ≠ "x")
    discoverOk := fun _ => true
    disconnectOk := fun _ => true }

/-- The empty initial manager state. -/
def mgrInit : MgrState :=
  { clients := [], discoveryState := .NOT_STARTED, feedback := []
    warnLog := [], errorLog := [], registry := [], nextStamp := 0 }

theorem stopFold_errorLog_mono (env : CliEnv) :
    ∀ (l : List (String × McpClient)) (st : MgrState), ∀ x ∈ st.errorLog,
      x ∈ (l.foldl (stopDisconnectStep env) st).errorLog := by
  intro l
  induction l with
  | nil => exact fun st x hx => hx
  | cons q rest ih =>
    intro st x hx
    refine ih (stopDisconnectStep env st q) x ?_
    unfold stopDisconnectStep
    cases clientDisconnect env q.1 with
    | ok _ => exact hx
    | error e => exact List.mem_append_left _ hx

theorem stopFold_logs_failures (env : CliEnv) :
    ∀ (l : List (String × McpClient)) (st : MgrState), ∀ p ∈ l,
      env.disconnectOk p.1 = false →
      ("Error stopping client " ++ p.1 ++ ": " ++ ("disconnect failed: " ++ p.1)) ∈
        (l.foldl (stopDisconnectStep env) st).errorLog := by
  intro l
  induction l with
  | nil => intro st p hp; exact absurd hp (List.not_mem_nil p)
  | cons q rest ih =>
    intro st p hp hfail
    rcases List.mem_cons.1 hp with rfl | hmem
    · refine stopFold_errorLog_mono env rest (stopDisconnectStep env st p) _ ?_
      unfold stopDisconnectStep clientDisconnect
      rw [hfail]
      exact List.mem_append_right _ (List.mem_singleton.2 rfl)
    · exact ih (stopDisconnectStep env st q) p hmem hfail

/-- C8: `stop()` is idempotent: calling it twice in a row, with no discovery
in between, rejects neither call and leaves the handle map empty after each
call; a rejecting `disconnect()` is caught and logged to `console.error`
rather than propagated. -/
theorem stop_idempotent (env : CliEnv) (st : MgrState) :
    ∃ st1 st2, stopRun env st = .ok st1 ∧ st1.clients = [] ∧
      stopRun env st1 = .ok st2 ∧ st2.clients = [] ∧ st2 = st1 ∧
      (∀ p ∈ st.clients, env.disconnectOk p.1 = false →
        ("Error stopping client " ++ p.1 ++ ": " ++ ("disconnect failed: " ++ p.1)) ∈
          st1.errorLog) := by
  refine ⟨{ st.clients.foldl (stopDisconnectStep env) st with clients := [] },
    { st.clients.foldl (stopDisconnectStep env) st with clients := [] },
    rfl, rfl, rfl, rfl, rfl, ?_⟩
  intro p hp hfail
  exact stopFold_logs_failures env st.clients st p hp hfail

/-- C9: the trusted-folder guard makes `discoverMcpTools` and
`discoverAllMcpTools` return immediately with the whole observable state —
client map, discovery state, registry, feedback, logs — unchanged; likewise
`discoverMcpTools` is a no-op when the config carries an extension
back-reference with `isActive: false`. -/
theorem discovery_guards_frame (env : CliEnv) (st : MgrState) (name : String)
    (config : MCPServerConfig) :
    (env.trusted = false →
      discoverMcpToolsRun env st name config = .ok st ∧
      discoverAllMcpToolsRun env st = .ok st) ∧
    (config.extensionIsActive = some false →
      discoverMcpToolsRun env st name config = .ok st) := by
  refine ⟨fun hT => ⟨?_, ?_⟩, fun hA => ?_⟩
  · simp [discoverMcpToolsRun, hT]
  · simp [discoverAllMcpToolsRun, hT]
  · by_cases hT : env.trusted = false
    · simp [discoverMcpToolsRun, hT]
    · simp [discoverMcpToolsRun, hT, hA]

/-- An untrusted-folder environment. -/
def untrustedEnv : CliEnv :=
  { trusted := false, mcpServers := [], mcpServerCommand := none
    connectOk := fun _ => true, discoverOk := fun _ => true
    disconnectOk := fun _ => true }

/-- A trusted environment with no configured servers and no command-line
override. -/
def trustedEmptyEnv : CliEnv :=
  { trusted := true, mcpServers := [], mcpServerCommand := none
    connectOk := fun _ => true, discoverOk := fun _ => true
    disconnectOk := fun _ => true }

theorem discovery_guards_frame_witness :
    discoverMcpToolsRun untrustedEnv mgrInit "s" { extensionIsActive := none } =
      .ok mgrInit ∧
    discoverAllMcpToolsRun untrustedEnv mgrInit = .ok mgrInit ∧
    discoverMcpToolsRun trustedEmptyEnv mgrInit "s"
      { extensionIsActive := some false } = .ok mgrInit := by
  obtain ⟨h1, -⟩ :=
    discovery_guards_frame untrustedEnv mgrInit "s" { extensionIsActive := none }
  obtain ⟨-, h2⟩ :=
    discovery_guards_frame trustedEmptyEnv mgrInit "s"
      { extensionIsActive := some false }
  exact ⟨(h1 rfl).1, (h1 rfl).2, h2 rfl⟩

/-- C10: in the batch-coalescing variant, calling `discoverAllMcpTools` in a
trusted folder with an empty effective server set and no prior discovery
resolves successfully, yet `getDiscoveryState()` still returns `NOT_STARTED`
afterwards: only `discoverMcpTools` moves the state, and with no servers it
is never invoked, so the state never reaches `IN_PROGRESS` or `COMPLETED`. -/
theorem discoverAll_empty_keeps_notStarted (env : CliEnv) (st : MgrState)
    (hT : env.trusted = true) (hS : env.mcpServers = [])
    (hC : env.mcpServerCommand = none) (hcl : st.clients = [])
    (hds : st.discoveryState = .NOT_STARTED) :
    ∃ t, discoverAllMcpToolsRun env st = .ok t ∧
      t.getDiscoveryState = .NOT_STARTED := by
  have hpop : populateMcpServerCommand env.mcpServers env.mcpServerCommand = [] := by
    rw [hS, hC]; rfl
  refine ⟨{ st.clients.foldl (stopDisconnectStep env) st with clients := [] },
    ?_, ?_⟩
  · simp [discoverAllMcpToolsRun, hT, stopRun, hpop, Bind.bind, Except.bind,
      List.foldlM, pure, Except.pure]
  · show (st.clients.foldl (stopDisconnectStep env) st).discoveryState =
      MCPDiscoveryState.NOT_STARTED
    rw [hcl]
    exact hds

theorem discoverAll_empty_keeps_notStarted_witness :
    ∃ t, discoverAllMcpToolsRun trustedEmptyEnv mgrInit = .ok t ∧
      t.getDiscoveryState = .NOT_STARTED :=
  discoverAll_empty_keeps_notStarted trustedEmptyEnv mgrInit rfl rfl rfl rfl rfl

theorem discovery_never_rejects_and_isolates_witness :
    ∃ t, discoverAllMcpToolsRun c4Env mgrInit = .ok t ∧
      ∀ nc ∈ populateMcpServerCommand c4Env.mcpServers c4Env.mcpServerCommand,
        nc.2.extensionIsActive ≠ some false →
        (mapGet t.clients nc.1).isSome = true ∧
        ((c4Env.connectOk nc.1 = false ∨ c4Env.discoverOk nc.1 = false) →
          ("error", discoveryFeedbackMsg nc.1 ("connect failed: " ++ nc.1)) ∈ t.feedback ∨
          ("error", discoveryFeedbackMsg nc.1 ("discover failed: " ++ nc.1)) ∈ t.feedback) :=
  (discovery_never_rejects_and_isolates c4Env mgrInit "x"
    { extensionIsActive := none }).2.2 rfl

/-! ## The confirmation interceptor (part_014)

`MessageBusPlugin.beforeToolCallback` builds the invocation, queries
`shouldConfirmExecute`, and — when confirmation is required — publishes a
display request and suspends on a one-shot `responseHandler`.  Fresh
resources (`randomUUID()`, `new AbortController()`) are modelled by a
counter: a draw returns the counter and bumps it, so every drawn identifier
differs from every identifier in existence before the draw. -/

/-- A fresh identifier draw (`randomUUID()` / a new controller's signal). -/
def freshId (g : Nat) : Nat × Nat := (g, g + 1)

/-- `ToolConfirmationResponse` (types.js): correlation id plus decision. -/
structure ToolConfirmationResponse where
  correlationId : Nat
  confirmed : Bool
deriving DecidableEq, Repr

/-- How the promise created at line 60 of part_014 can settle. -/
inductive SettleKind
  /-- `resolve(undefined)` — proceed with the tool call (line 68) -/
  | resolvedProceed
  /-- `reject(new Error(...))` — the denial error (line 71) -/
  | rejectedDenied
  /-- a cancellation-specific rejection; no code path produces it -/
  | rejectedCancelled
deriving DecidableEq, Repr

/-- A pending confirmation: the `correlationId` constant the handler closes
over (line 48), whether the one-shot handler is still subscribed, and the
settlements of the suspended promise, in order. -/
structure PendingConf where
  corrId : Nat
  subscribed : Bool
  settles : List SettleKind
deriving DecidableEq, Repr

/-- `responseHandler` (part_014 lines 61–74): a response with a matching
correlation id unsubscribes the handler first, then resolves the suspended
call when `confirmed` is true and rejects it with the denial error
otherwise; a non-matching response is ignored and the handler keeps
waiting. -/
def responseHandler (p : PendingConf) (response : ToolConfirmationResponse) :
    PendingConf :=
  if response.correlationId = p.corrId then
    if response.confirmed then
      { p with subscribed := false, settles := p.settles ++ [.resolvedProceed] }
    else
      { p with subscribed := false, settles := p.settles ++ [.rejectedDenied] }
  else p

/-- Modelled from the spec: `message-bus.ts` is not among the provided
sources.  Per §4.2 `publish` fans a message out synchronously to the
handlers subscribed to its variant; with the one-shot `responseHandler` as
the sole subscriber for `TOOL_CONFIRMATION_RESPONSE`, a publish reaches the
handler exactly when it is still subscribed. -/
def publishResponse (p : PendingConf) (response : ToolConfirmationResponse) :
    PendingConf :=
  if p.subscribed then responseHandler p response else p

/-- Result of the confirmation-requiring path of `beforeToolCallback`
(part_014 lines 40–80). -/
structure CallbackRun where
  /-- the abort signal passed to `shouldConfirmExecute` (line 42) -/
  signalPassed : Nat
  /-- the correlation id carried by the published display request (line 52) -/
  publishedCorrId : Nat
  /-- the suspended call with its one-shot handler (lines 48, 60–79) -/
  pending : PendingConf
  genAfter : Nat
deriving DecidableEq, Repr

/-- The confirmation-requiring path of `beforeToolCallback`: line 42 creates
a fresh `AbortController` and passes its signal to `shouldConfirmExecute`;
line 48 draws the `correlationId` the handler will match against; line 52
publishes the display request carrying *another* fresh `randomUUID()`;
lines 60–79 subscribe the handler and suspend. -/
def beforeToolCallbackRun (g : Nat) : CallbackRun :=
  let (sig, g0) := freshId g
  let (correlationId, g1) := freshId g0
  let (pubId, g2) := freshId g1
  { signalPassed := sig
    publishedCorrId := pubId
    pending := { corrId := correlationId, subscribed := true, settles := [] }
    genAfter := g2 }

/-- C2 (code bug): the display request published at part_014 line 52 carries
a second fresh `randomUUID()`, not the line-48 `correlationId` that the
waiting `responseHandler` compares responses against — the two ids always
differ, so a response echoing the displayed id never matches. -/
theorem confirmation_ids_disagree :
    (beforeToolCallbackRun 0).publishedCorrId ≠
      (beforeToolCallbackRun 0).pending.corrId ∧
    ∀ g : Nat, (beforeToolCallbackRun g).publishedCorrId ≠
      (beforeToolCallbackRun g).pending.corrId := by
  refine ⟨by decide, fun g => ?_⟩
  simp [beforeToolCallbackRun, freshId]

/-- C5: publishing two `ConfirmationResponse`s with the same correlation id
— whatever each one's `confirmed` content, so in particular a confirmation
followed by a conflicting denial — settles the suspended call exactly once:
the first matching delivery unsubscribes the handler before settling, so the
second publish finds no subscriber and is a no-op.  (The proof never uses
`hm2`: after the first delivery the second publish is a no-op for *any*
second response.) -/
theorem confirmation_exactly_once (p : PendingConf)
    (r1 r2 : ToolConfirmationResponse) (hsub : p.subscribed = true)
    (hpend : p.settles = []) (hm1 : r1.correlationId = p.corrId)
    (hm2 : r2.correlationId = p.corrId) :
    (publishResponse (publishResponse p r1) r2).settles.length = 1 ∧
    publishResponse (publishResponse p r1) r2 = publishResponse p r1 := by
  cases hc : r1.confirmed <;>
    simp [publishResponse, responseHandler, hsub, hpend, hm1, hc]

/-- A pending confirmation waiting on correlation id 7. -/
def pendingW : PendingConf := { corrId := 7, subscribed := true, settles := [] }

/-- A denial response for correlation id 7. -/
def respW : ToolConfirmationResponse := { correlationId := 7, confirmed := false }

/-- A confirmation response for correlation id 7. -/
def respWTrue : ToolConfirmationResponse :=
  { correlationId := 7, confirmed := true }

/-- Witness for C5 at the conflicting-duplicate input: a `confirmed: true`
response followed by a `confirmed: false` response with the same id. -/
theorem confirmation_exactly_once_witness :
    (publishResponse (publishResponse pendingW respWTrue) respW).settles.length = 1 :=
  (confirmation_exactly_once pendingW respWTrue respW rfl rfl rfl rfl).1

/-- C7: a matching response with `confirmed: false` rejects the suspended
tool-invocation call with the denial error — a typed, expected outcome, not
the cancellation kind and not a crash — while a matching response with
`confirmed: true` resolves the call so the tool proceeds. -/
theorem confirmation_denial_path (p : PendingConf)
    (r : ToolConfirmationResponse) (hmatch : r.correlationId = p.corrId) :
    (r.confirmed = false →
      responseHandler p r =
        { p with subscribed := false, settles := p.settles ++ [.rejectedDenied] }) ∧
    (r.confirmed = true →
      responseHandler p r =
        { p with subscribed := false, settles := p.settles ++ [.resolvedProceed] }) ∧
    SettleKind.rejectedDenied ≠ SettleKind.rejectedCancelled := by
  refine ⟨fun hc => ?_, fun hc => ?_, by decide⟩ <;>
    simp [responseHandler, hmatch, hc]

theorem confirmation_denial_path_witness :
    responseHandler pendingW respW =
      { pendingW with subscribed := false, settles := [.rejectedDenied] } :=
  (confirmation_denial_path pendingW respW rfl).1 rfl

/-- C6 counterexample: with one pre-existing caller signal (id 0; the
generator is at 1), the signal `beforeToolCallback` passes to
`shouldConfirmExecute` is its own freshly constructed controller's (id 1),
not the caller's — the claim that the query receives a caller-supplied
cancellation signal fails at this input. -/
theorem confirmation_cancellation_counterexample :
    (beforeToolCallbackRun 1).signalPassed ≠ 0 := by decide

/-- C6 (amended): `shouldConfirmExecute` receives the signal of an
`AbortController` freshly constructed inside `beforeToolCallback` — never a
pre-existing caller-supplied signal — and a pending confirmation has no
cancellation path: delivering responses can only resolve the call or reject
it with the denial error, never produce a cancellation-specific rejection,
and nothing unsubscribes the handler other than a matching response. -/
theorem confirmation_no_cancellation (g s : Nat) (p : PendingConf)
    (r : ToolConfirmationResponse) (hs : s < g)
    (hnc : SettleKind.rejectedCancelled ∉ p.settles) :
    (beforeToolCallbackRun g).signalPassed ≠ s ∧
    SettleKind.rejectedCancelled ∉ (publishResponse p r).settles ∧
    ((publishResponse p r).subscribed = false →
      p.subscribed = false ∨ r.correlationId = p.corrId) := by
  refine ⟨?_, ?_, ?_⟩
  · simp only [beforeToolCallbackRun, freshId]
    omega
  · unfold publishResponse responseHandler
    by_cases h1 : p.subscribed <;> by_cases h2 : r.correlationId = p.corrId <;>
      cases hc : r.confirmed <;> simp [h1, h2, hc, hnc]
  · unfold publishResponse responseHandler
    by_cases h1 : p.subscribed <;> by_cases h2 : r.correlationId = p.corrId <;>
      cases hc : r.confirmed <;> simp [h1, h2, hc]

theorem confirmation_no_cancellation_witness :
    (beforeToolCallbackRun 1).signalPassed ≠ 0 ∧
    SettleKind.rejectedCancelled ∉ (publishResponse pendingW respW).settles :=
  ⟨(confirmation_no_cancellation 1 0 pendingW respW (by decide) (by decide)).1,
   (confirmation_no_cancellation 1 0 pendingW respW (by decide) (by decide)).2.1⟩

end GeminiCli
